import Mathlib

/-!
Shallow embedding of the film API (Django app `film`) for verification.

Source files embedded:
  - `film/models.py`: entities `Film`, `FilmCache`, `Comments`.
  - `film/views.py`: `FilmsListView.get`, `FilmDetailView.get`,
    `CommentCreateView.post` (and the cache constants).
  - `film/management/commands/sync_films.py`: `Command.handle`.

Modelling conventions:
  - Django querysets over a table are lists of rows in database order;
    `.filter(...).first()` is `List.find?`, `.count()` is `List.length` of
    the filter, `.get(pk)` is `List.find?` on the (unique) key.
  - The shared cache backend is an association list from string keys to
    stored payloads together with the TTL passed at `set` time.  TTL expiry
    is not modelled: all reads happen inside the TTL window, which is the
    regime every claim below speaks about.
  - Request payload values (`request.data.get(...)`) are JSON scalars,
    modelled by `JVal`; Python truthiness (`if not x`), `int(x)` and
    `str(x).strip()` are modelled by `pyTruthy`, `pyInt`, `pyStr`/`pyStrip`.
  - The `try/except` around comment-count resolution in the views swallows
    any error and leaves the count at its initialisation value `0`; the
    possibility of such an error is modelled by an oracle
    `fails : String → Bool` telling, per film title, whether the resolution
    attempt raises.  A store failure in `FilmDetailView` (anything the outer
    handler turns into a 500) is modelled by a `storeFail` flag.
  - Dates are day ordinals (`Nat`); row primary keys are `Int` so that the
    `int(...)` conversion of request values needs no coercion games.
-/

namespace FilmApi

/-! ### Python request-value semantics -/

/-- A JSON scalar as it comes out of `request.data.get(key)` in DRF. -/
inductive JVal where
  | jnull
  | jbool (b : Bool)
  | jnum (n : Int)
  | jstr (s : String)
deriving DecidableEq

/-- Python truthiness: `None`, `False`, `0` and `""` are falsy. -/
def pyTruthy : JVal → Bool
  | .jnull => false
  | .jbool b => b
  | .jnum n => n != 0
  | .jstr s => s != ""

/-- The six ASCII whitespace characters stripped by Python `str.strip()`
(`string.whitespace`).  Unicode whitespace is not modelled. -/
def pyWs (c : Char) : Bool :=
  c = ' ' || c = '\t' || c = '\n' || c = '\r' || c = '\x0b' || c = '\x0c'

/-- `str.strip()` on the character list: drop whitespace from both ends. -/
def stripList (l : List Char) : List Char :=
  (l.dropWhile pyWs).rdropWhile pyWs

/-- Python `s.strip()`. -/
def pyStrip (s : String) : String :=
  (stripList s.data).asString

/-- Decimal digit characters of a natural number, most significant first.
This is the reference rendering used to reason about `Nat.repr`. -/
def decChars (n : Nat) : List Char :=
  if _h : n < 10 then [Nat.digitChar n]
  else decChars (n / 10) ++ [Nat.digitChar (n % 10)]
decreasing_by exact Nat.div_lt_self (by omega) (by omega)

/-- Python `str` on an int (decimal, `-` sign for negatives). -/
def intStr (n : Int) : String :=
  if n < 0 then "-" ++ Nat.repr n.natAbs else Nat.repr n.toNat

/-- Python `str(x)` on a JSON scalar. -/
def pyStr : JVal → String
  | .jnull => "None"
  | .jbool true => "True"
  | .jbool false => "False"
  | .jnum n => intStr n
  | .jstr s => s

/-- Numeric value of a list of decimal digit characters. -/
def digitsToNat (l : List Char) : Nat :=
  l.foldl (fun a c => a * 10 + (c.toNat - 48)) 0

/-- Python `int(s)` on a string: surrounding whitespace is allowed, then an
optional sign and a nonempty run of decimal digits (digit-group underscores
are not modelled). -/
def parseIntStr (s : String) : Option Int :=
  match stripList s.data with
  | [] => none
  | c :: rest =>
    if c = '-' then
      if rest ≠ [] ∧ rest.all Char.isDigit then some (-(digitsToNat rest : Int)) else none
    else if c = '+' then
      if rest ≠ [] ∧ rest.all Char.isDigit then some ((digitsToNat rest : Int)) else none
    else
      if (c :: rest).all Char.isDigit then some ((digitsToNat (c :: rest) : Int)) else none

/-- Python `int(x)` on a JSON scalar, `none` when it raises
`ValueError`/`TypeError` (the two exceptions the view catches). -/
def pyInt : JVal → Option Int
  | .jnull => none
  | .jbool b => some (if b then 1 else 0)
  | .jnum n => some n
  | .jstr s => parseIntStr s

/-! ### Data model (`film/models.py`) -/

/-- `Film` row: local, commentable film entity. -/
structure Film where
  id : Int
  title : String
  release_date : Nat
deriving DecidableEq

/-- `FilmCache` row: catalog film synced from SWAPI.  `id` is the implicit
auto primary key, `film_id` the external string identifier (unique). -/
structure CatalogFilm where
  id : Int
  film_id : String
  title : String
  release_date : Nat
deriving DecidableEq

/-- `Comments` row. -/
structure Comment where
  id : Int
  filmId : Int
  comment : String
  created_at : Nat
deriving DecidableEq

/-- Serialized film payload produced by `FilmSerializer`. -/
structure FilmView where
  id : Int
  title : String
  release_date : Nat
  comment_count : Nat
deriving DecidableEq

/-- Payloads stored in the shared cache: the films list under
`films_list`, a single film view under `film_<id>`. -/
inductive CacheVal where
  | filmList (fs : List FilmView)
  | film (f : FilmView)
deriving DecidableEq

/-- The shared cache backend: key, stored value, TTL given at `set` time. -/
abbrev Cache := List (String × CacheVal × Nat)

def cacheGet (c : Cache) (k : String) : Option CacheVal :=
  (c.find? (fun e => e.1 == k)).map (fun e => e.2.1)

def cacheSet (c : Cache) (k : String) (v : CacheVal) (ttl : Nat) : Cache :=
  (k, v, ttl) :: c.filter (fun e => e.1 != k)

def cacheDelete (c : Cache) (k : String) : Cache :=
  c.filter (fun e => e.1 != k)

def emptyCache : Cache := []

/-- Database state: the three tables, plus the next auto-assigned primary
keys and a logical clock for server-assigned timestamps. -/
structure DB where
  catalog : List CatalogFilm
  films : List Film
  comments : List Comment
  nextCommentId : Int
  nextCatalogId : Int
  now : Nat
deriving DecidableEq

/-- `FILMS_CACHE_KEY` in `film/views.py`. -/
def FILMS_CACHE_KEY : String := "films_list"

/-- `CACHE_TTL = 60 * 10` in `film/views.py`. -/
def CACHE_TTL : Nat := 60 * 10

/-! ### Query service (`FilmsListView.get`, `FilmDetailView.get`) -/

/-- Comparison used by `FilmCache.objects.all().order_by('release_date')`. -/
def rdLe (a b : CatalogFilm) : Bool :=
  a.release_date ≤ b.release_date

/-- The catalog in list order: all `FilmCache` rows ordered by release date
ascending (`order_by('release_date')`). -/
def sortedCatalog (db : DB) : List CatalogFilm :=
  db.catalog.mergeSort rdLe

/-- One iteration of the comment-count loop in `FilmsListView.get`
(lines 42-56), also reused by `FilmDetailView.get` (lines 120-133):
`comment_count` starts at 0; inside a `try` the first `Film` whose title
equals the catalog row's title is looked up and, when found, its comments
are counted; any exception (oracle `fails` on this title) is swallowed,
leaving the count at 0. -/
def filmViewOf (db : DB) (fails : String → Bool) (cf : CatalogFilm) : FilmView :=
  let comment_count :=
    if fails cf.title then 0
    else
      match db.films.find? (fun f => f.title == cf.title) with
      | some film_record => (db.comments.filter (fun c => c.filmId == film_record.id)).length
      | none => 0
  { id := cf.id, title := cf.title, release_date := cf.release_date,
    comment_count := comment_count }

/-- The film list assembled from the store on a cache miss. -/
def assembleViews (db : DB) (fails : String → Bool) : List FilmView :=
  (sortedCatalog db).map (filmViewOf db fails)

/-- `FilmsListView.get`.  Returns the response payload, the cache after the
call, and whether the persistent store was read (`false` on a cache hit). -/
def listFilms (db : DB) (cache : Cache) (fails : String → Bool) :
    CacheVal × Cache × Bool :=
  match cacheGet cache FILMS_CACHE_KEY with
  | some cached_data => (cached_data, cache, false)
  | none =>
    let response_data := CacheVal.filmList (assembleViews db fails)
    (response_data, cacheSet cache FILMS_CACHE_KEY response_data CACHE_TTL, true)

/-- Outcome of `FilmDetailView.get`. -/
inductive DetailResult where
  | ok (v : CacheVal)
  | notFound (film_id : String)
  | serverError
deriving DecidableEq

/-- HTTP status of a `FilmDetailView.get` outcome. -/
def DetailResult.status : DetailResult → Nat
  | .ok _ => 200
  | .notFound _ => 404
  | .serverError => 500

/-- `FilmDetailView.get`.  `storeFail` models the store raising on the
`FilmCache.objects.get` access, which the outer handler turns into a 500.
Returns the outcome, the cache after the call, and whether the persistent
store was queried (`false` on a cache hit). -/
def getFilm (db : DB) (cache : Cache) (fails : String → Bool)
    (storeFail : Bool) (film_id : String) : DetailResult × Cache × Bool :=
  let cache_key := "film_" ++ film_id
  match cacheGet cache cache_key with
  | some cached_data => (.ok cached_data, cache, false)
  | none =>
    if storeFail then (.serverError, cache, true)
    else
      match db.catalog.find? (fun cf => cf.film_id == film_id) with
      | none => (.notFound film_id, cache, true)
      | some film =>
        let response_data := CacheVal.film (filmViewOf db fails film)
        (.ok response_data, cacheSet cache cache_key response_data CACHE_TTL, true)

/-! ### Comment service (`CommentCreateView.post`) -/

/-- A POST body for `CommentCreateView`: `request.data.get('film')` and
`request.data.get('comment')` (absent field = `None`). -/
structure Request where
  filmField : Option JVal
  commentField : Option JVal
deriving DecidableEq

/-- Outcome of `CommentCreateView.post`.  The `validationError` detail
strings are the ones in the source. -/
inductive CreateResult where
  | validationError (detail : String)
  | notFound (film_id : Int)
  | created (c : Comment)
deriving DecidableEq

/-- `CommentCreateView.post` (lines 244-320): Python-truthiness check on the
film field, `int(...)` conversion, film lookup by primary key, then
truthiness / emptiness-after-strip / length checks on the comment text;
on success the comment row is inserted with a server-assigned timestamp and
the `films_list` cache key is deleted. -/
def createComment (db : DB) (cache : Cache) (req : Request) :
    CreateResult × DB × Cache :=
  let filmVal := req.filmField.getD .jnull
  if pyTruthy filmVal = false then
    (.validationError "film ID is required", db, cache)
  else
    match pyInt filmVal with
    | none => (.validationError "film ID must be a valid integer", db, cache)
    | some film_id =>
      match db.films.find? (fun f => f.id == film_id) with
      | none => (.notFound film_id, db, cache)
      | some film =>
        let commentVal := req.commentField.getD .jnull
        if pyTruthy commentVal = false then
          (.validationError "comment text is required", db, cache)
        else
          let comment_text := pyStrip (pyStr commentVal)
          if comment_text = "" then
            (.validationError "comment cannot be empty or whitespace only", db, cache)
          else if comment_text.length > 500 then
            (.validationError "Comment cannot exceed 500 characters", db, cache)
          else
            let cm : Comment :=
              { id := db.nextCommentId, filmId := film.id,
                comment := comment_text, created_at := db.now }
            (.created cm,
             { db with comments := db.comments ++ [cm],
                       nextCommentId := db.nextCommentId + 1,
                       now := db.now + 1 },
             cacheDelete cache FILMS_CACHE_KEY)

/-! ### Sync operation (`sync_films.py`, `Command.handle`) -/

/-- One record of the fetched remote sequence, as produced by
`utils.getfilms` (`{'title': ..., 'release_date': ..., 'comment_count': 0}`;
the count field is ignored by the sync loop). -/
structure RemoteFilm where
  title : String
  release_date : Nat
  comment_count : Nat
deriving DecidableEq

/-- `FilmCache.objects.update_or_create(film_id=fid, defaults={...})`:
update the row keyed by `fid` when it exists (`created = false`), otherwise
insert a fresh row with a new auto primary key (`created = true`). -/
def updateOrCreate (db : DB) (fid title : String) (rd : Nat) : DB × Bool :=
  if db.catalog.any (fun cf => cf.film_id == fid) then
    ({ db with catalog :=
        db.catalog.map (fun cf =>
          if cf.film_id == fid then { cf with title := title, release_date := rd } else cf) },
     false)
  else
    let row : CatalogFilm :=
      { id := db.nextCatalogId, film_id := fid, title := title, release_date := rd }
    ({ db with catalog := db.catalog ++ [row],
               nextCatalogId := db.nextCatalogId + 1 },
     true)

/-- The sync loop of `Command.handle` starting at fetch position `pos`
(0-based): record at position `p` gets external id `str(p + 1)`.
Returns the database together with the created and updated counts. -/
def syncLoop (db : DB) (pos : Nat) : List RemoteFilm → DB × Nat × Nat
  | [] => (db, 0, 0)
  | r :: rs =>
    let step := updateOrCreate db (Nat.repr (pos + 1)) r.title r.release_date
    let rest := syncLoop step.1 (pos + 1) rs
    (rest.1,
     (if step.2 then 1 else 0) + rest.2.1,
     (if step.2 then 0 else 1) + rest.2.2)

/-- Result of the sync command. -/
structure SyncReport where
  db : DB
  cache : Cache
  created : Nat
  updated : Nat

/-- `Command.handle` on a successfully fetched record sequence: run the
upsert loop, then unconditionally delete the `films_list` cache key. -/
def sync (db : DB) (cache : Cache) (remote : List RemoteFilm) : SyncReport :=
  let r := syncLoop db 0 remote
  { db := r.1, cache := cacheDelete cache FILMS_CACHE_KEY,
    created := r.2.1, updated := r.2.2 }

/-! ### Cache well-formedness -/

/-- Order on film views used to state the list-ordering property. -/
def viewLe (a b : FilmView) : Prop :=
  a.release_date ≤ b.release_date

instance : DecidableRel viewLe := fun a b => Nat.decLe a.release_date b.release_date

/-- Whatever the cache holds under `films_list` is a film list sorted
ascending by release date.  This is the invariant every cache reachable by
the API operations satisfies (see the preservation lemmas below). -/
def CacheWF (c : Cache) : Prop :=
  ∀ v, cacheGet c FILMS_CACHE_KEY = some v →
    ∃ l, v = CacheVal.filmList l ∧ l.Pairwise viewLe

/-! ### Sample data used by the closed witness statements -/

/-- A small concrete store: two catalog films, one commentable local film
carrying one comment. -/
def sampleDB : DB :=
  { catalog := [{ id := 1, film_id := "1", title := "A New Hope", release_date := 100 },
                { id := 2, film_id := "2", title := "Empire", release_date := 50 }],
    films := [{ id := 1, title := "A New Hope", release_date := 100 }],
    comments := [{ id := 1, filmId := 1, comment := "Great", created_at := 0 }],
    nextCommentId := 2, nextCatalogId := 3, now := 5 }

/-- Comment-count resolution oracle that never raises. -/
def noFails : String → Bool := fun _ => false

/-- A request that succeeds against `sampleDB`. -/
def sampleReq : Request := { filmField := some (JVal.jnum 1), commentField := some (JVal.jstr " hi ") }

/-- A string of 501 non-whitespace characters. -/
def longText : String := (List.replicate 501 'a').asString

/-! ### Lemmas about the cache backend -/

theorem find?_filter_eq {α : Type} {p q : α → Bool} (l : List α)
    (h : ∀ e, p e = true → q e = true) : (l.filter q).find? p = l.find? p := by
  induction l with
  | nil => rfl
  | cons a t ih =>
    by_cases hq : q a = true
    · rw [List.filter_cons_of_pos hq]
      by_cases hp : p a = true
      · rw [List.find?_cons_of_pos _ hp, List.find?_cons_of_pos _ hp]
      · rw [List.find?_cons_of_neg _ hp, List.find?_cons_of_neg _ hp]
        exact ih
    · have hp : ¬ p a = true := fun hpa => hq (h a hpa)
      rw [List.filter_cons_of_neg (by simpa using hq), List.find?_cons_of_neg _ hp]
      exact ih

theorem cacheGet_set_self (c : Cache) (k : String) (v : CacheVal) (t : Nat) :
    cacheGet (cacheSet c k v t) k = some v := by
  simp [cacheGet, cacheSet]

theorem cacheGet_set_ne (c : Cache) (k k' : String) (v : CacheVal) (t : Nat)
    (h : k' ≠ k) : cacheGet (cacheSet c k v t) k' = cacheGet c k' := by
  unfold cacheGet cacheSet
  rw [List.find?_cons_of_neg _ (by simpa using fun hh => h hh.symm)]
  rw [find?_filter_eq]
  intro e he
  simp only [beq_iff_eq] at he
  simpa [he] using h

theorem cacheGet_delete_self (c : Cache) (k : String) :
    cacheGet (cacheDelete c k) k = none := by
  unfold cacheGet cacheDelete
  rw [List.find?_eq_none.mpr]
  · rfl
  · intro e he
    have := (List.mem_filter.mp he).2
    simpa using this

theorem cacheGet_delete_ne (c : Cache) (k k' : String) (h : k' ≠ k) :
    cacheGet (cacheDelete c k) k' = cacheGet c k' := by
  unfold cacheGet cacheDelete
  rw [find?_filter_eq]
  intro e he
  simp only [beq_iff_eq] at he
  simpa [he] using h

/-- Per-film detail keys are distinct from the list key. -/
theorem filmKey_ne_listKey (s : String) : ("film_" ++ s) ≠ FILMS_CACHE_KEY := by
  intro h
  have h5 : ('f' :: 'i' :: 'l' :: 'm' :: '_' :: s.data)
      = ['f', 'i', 'l', 'm', 's', '_', 'l', 'i', 's', 't'] := congrArg String.data h
  simp at h5

/-! ### Lemmas about Python string stripping -/

theorem dropWhile_rdropWhile_dropWhile {α : Type} (p : α → Bool) (l : List α) :
    List.dropWhile p (List.rdropWhile p (List.dropWhile p l))
      = List.rdropWhile p (List.dropWhile p l) := by
  cases ha : List.dropWhile p l with
  | nil => simp [List.rdropWhile_nil]
  | cons ah tl =>
    have hah : p ah = false := by
      have h1 := List.head?_dropWhile_not p l
      rw [ha] at h1
      simpa using h1
    rw [List.rdropWhile, List.reverse_cons, List.dropWhile_append]
    by_cases he : (List.dropWhile p tl.reverse).isEmpty = true
    · rw [if_pos he]
      simp [List.dropWhile_cons, hah]
    · rw [if_neg he, List.reverse_append, List.reverse_singleton, List.singleton_append,
        List.dropWhile_cons]
      simp [hah]

theorem stripList_idem (l : List Char) : stripList (stripList l) = stripList l := by
  unfold stripList
  rw [dropWhile_rdropWhile_dropWhile, List.rdropWhile_idempotent]

theorem pyStrip_data (s : String) : (pyStrip s).data = stripList s.data := rfl

theorem pyStrip_idem (s : String) : pyStrip (pyStrip s) = pyStrip s := by
  unfold pyStrip
  rw [show (stripList s.data).asString.data = stripList s.data from rfl, stripList_idem]

theorem pyStrip_length (s : String) : (pyStrip s).length = (stripList s.data).length := rfl

/-! ### Decimal rendering: `Nat.repr` is injective -/

theorem digitChar_inj : ∀ a < 10, ∀ b < 10, Nat.digitChar a = Nat.digitChar b → a = b := by
  decide

theorem decChars_of_lt {n : Nat} (h : n < 10) : decChars n = [Nat.digitChar n] := by
  rw [decChars]
  exact dif_pos h

theorem decChars_of_ge {n : Nat} (h : ¬ n < 10) :
    decChars n = decChars (n / 10) ++ [Nat.digitChar (n % 10)] := by
  rw [decChars]
  exact dif_neg h

theorem decChars_ne_nil (n : Nat) : decChars n ≠ [] := by
  by_cases h : n < 10
  · rw [decChars_of_lt h]
    simp
  · rw [decChars_of_ge h]
    simp

theorem toDigitsCore_eq_decChars :
    ∀ (f n : Nat) (ds : List Char), n < f →
      Nat.toDigitsCore 10 f n ds = decChars n ++ ds := by
  intro f
  induction f with
  | zero => omega
  | succ f ih =>
    intro n ds hn
    simp only [Nat.toDigitsCore]
    by_cases h0 : n / 10 = 0
    · have hlt : n < 10 := by omega
      rw [if_pos h0, decChars_of_lt hlt, Nat.mod_eq_of_lt hlt]
      rfl
    · have hge : ¬ n < 10 := by omega
      rw [if_neg h0, ih (n / 10) _ (by omega), decChars_of_ge hge, List.append_assoc]
      rfl

theorem decChars_inj : ∀ a b : Nat, decChars a = decChars b → a = b := by
  intro a
  induction a using Nat.strong_induction_on with
  | _ a ih =>
    intro b h
    by_cases ha : a < 10 <;> by_cases hb : b < 10
    · rw [decChars_of_lt ha, decChars_of_lt hb] at h
      exact digitChar_inj a ha b hb (List.singleton_inj.mp h)
    · rw [decChars_of_lt ha, decChars_of_ge hb] at h
      have hlen := congrArg List.length h
      simp only [List.length_singleton, List.length_append] at hlen
      have h0 : (decChars (b / 10)).length = 0 := by omega
      exact absurd (List.length_eq_zero.mp h0) (decChars_ne_nil _)
    · rw [decChars_of_ge ha, decChars_of_lt hb] at h
      have hlen := congrArg List.length h
      simp only [List.length_singleton, List.length_append] at hlen
      have h0 : (decChars (a / 10)).length = 0 := by omega
      exact absurd (List.length_eq_zero.mp h0) (decChars_ne_nil _)
    · rw [decChars_of_ge ha, decChars_of_ge hb] at h
      obtain ⟨h1, h2⟩ := List.append_inj' h rfl
      have hdiv : a / 10 = b / 10 := ih (a / 10) (Nat.div_lt_self (by omega) (by omega)) _ h1
      have hmod : a % 10 = b % 10 :=
        digitChar_inj _ (Nat.mod_lt a (by omega)) _ (Nat.mod_lt b (by omega))
          (List.singleton_inj.mp h2)
      omega

theorem natRepr_injective : ∀ a b : Nat, Nat.repr a = Nat.repr b → a = b := by
  intro a b h
  have hd : Nat.toDigits 10 a = Nat.toDigits 10 b := congrArg String.data h
  rw [Nat.toDigits, Nat.toDigits,
    toDigitsCore_eq_decChars (a + 1) a [] (by omega),
    toDigitsCore_eq_decChars (b + 1) b [] (by omega),
    List.append_nil, List.append_nil] at hd
  exact decChars_inj a b hd

/-! ### Ordering of the assembled film list -/

theorem sortedCatalog_pairwise (db : DB) :
    (sortedCatalog db).Pairwise (fun a b => rdLe a b = true) :=
  List.sorted_mergeSort
    (fun a b c => by simp only [rdLe, decide_eq_true_eq]; omega)
    (fun a b => by simp only [rdLe, Bool.or_eq_true, decide_eq_true_eq]; omega)
    db.catalog

theorem sortedCatalog_perm (db : DB) : (sortedCatalog db).Perm db.catalog :=
  List.mergeSort_perm db.catalog rdLe

theorem filmViewOf_release_date (db : DB) (fails : String → Bool) (cf : CatalogFilm) :
    (filmViewOf db fails cf).release_date = cf.release_date := rfl

theorem assembleViews_pairwise (db : DB) (fails : String → Bool) :
    (assembleViews db fails).Pairwise viewLe := by
  refine List.Pairwise.map (filmViewOf db fails) ?_ (sortedCatalog_pairwise db)
  intro a b hab
  simp only [rdLe, decide_eq_true_eq] at hab
  exact hab

theorem assembleViews_length (db : DB) (fails : String → Bool) :
    (assembleViews db fails).length = db.catalog.length := by
  unfold assembleViews
  rw [List.length_map]
  exact (sortedCatalog_perm db).length_eq

/-! ### The cache invariant is reachable and preserved -/

theorem cacheWF_empty : CacheWF emptyCache := by
  intro v hv
  simp [cacheGet, emptyCache] at hv

theorem cacheWF_delete (c : Cache) (k : String) (h : CacheWF c) :
    CacheWF (cacheDelete c k) := by
  intro v hv
  by_cases hk : FILMS_CACHE_KEY = k
  · rw [hk, cacheGet_delete_self] at hv
    exact absurd hv (by simp)
  · rw [cacheGet_delete_ne c k _ hk] at hv
    exact h v hv

theorem cacheWF_set_filmList (c : Cache) (t : Nat) (l : List FilmView)
    (hl : l.Pairwise viewLe) :
    CacheWF (cacheSet c FILMS_CACHE_KEY (CacheVal.filmList l) t) := by
  intro v hv
  rw [cacheGet_set_self] at hv
  exact ⟨l, (Option.some.injEq _ _ ▸ hv).symm, hl⟩

theorem cacheWF_set_other (c : Cache) (k : String) (v : CacheVal) (t : Nat)
    (hk : FILMS_CACHE_KEY ≠ k) (h : CacheWF c) : CacheWF (cacheSet c k v t) := by
  intro w hw
  rw [cacheGet_set_ne c k _ v t hk] at hw
  exact h w hw

theorem cacheWF_listFilms (db : DB) (c : Cache) (fails : String → Bool)
    (h : CacheWF c) : CacheWF (listFilms db c fails).2.1 := by
  unfold listFilms
  cases hc : cacheGet c FILMS_CACHE_KEY with
  | some v => exact h
  | none => exact cacheWF_set_filmList c CACHE_TTL _ (assembleViews_pairwise db fails)

theorem cacheWF_getFilm (db : DB) (c : Cache) (fails : String → Bool)
    (storeFail : Bool) (fid : String) (h : CacheWF c) :
    CacheWF (getFilm db c fails storeFail fid).2.1 := by
  simp only [getFilm]
  cases hc : cacheGet c ("film_" ++ fid) with
  | some v => exact h
  | none =>
    by_cases hs : storeFail = true
    · simp only [hs, if_true]
      exact h
    · simp only [hs, if_false]
      cases hf : db.catalog.find? (fun cf => cf.film_id == fid) with
      | none => exact h
      | some film =>
        exact cacheWF_set_other c _ _ CACHE_TTL (fun hk => filmKey_ne_listKey fid hk.symm) h

theorem cacheWF_createComment (db : DB) (c : Cache) (req : Request)
    (h : CacheWF c) : CacheWF (createComment db c req).2.2 := by
  simp only [createComment]
  split
  · exact h
  · split
    · exact h
    · split
      · exact h
      · split
        · exact h
        · split
          · exact h
          · split
            · exact h
            · exact cacheWF_delete c FILMS_CACHE_KEY h

theorem cacheWF_sync (db : DB) (c : Cache) (remote : List RemoteFilm)
    (h : CacheWF c) : CacheWF (sync db c remote).cache :=
  cacheWF_delete c FILMS_CACHE_KEY h

theorem zip_map_self {α β : Type} (f : α → β) :
    ∀ l : List α, l.zip (l.map f) = l.map (fun x => (x, f x))
  | [] => rfl
  | a :: t => by
    simp only [List.map_cons, List.zip_cons_cons, zip_map_self f t]

theorem one_le_length_of_ne_empty {s : String} (h : s ≠ "") : 1 ≤ s.length := by
  cases s with
  | mk data =>
    cases data with
    | nil => exact absurd rfl h
    | cons c t =>
      show 1 ≤ (c :: t).length
      simp

theorem pyStrip_empty : pyStrip "" = "" := rfl

/-! ### Inversion of a successful `createComment` -/

theorem createComment_created_inv (db : DB) (cache : Cache) (req : Request)
    (cm : Comment) (db2 : DB) (cache2 : Cache)
    (h : createComment db cache req = (.created cm, db2, cache2)) :
    db2 = { db with comments := db.comments ++ [cm],
                    nextCommentId := db.nextCommentId + 1, now := db.now + 1 }
    ∧ cache2 = cacheDelete cache FILMS_CACHE_KEY
    ∧ cm.comment = pyStrip (pyStr (req.commentField.getD .jnull))
    ∧ cm.comment ≠ ""
    ∧ cm.comment.length ≤ 500 := by
  simp only [createComment] at h
  split at h
  · simp at h
  · split at h
    · simp at h
    · split at h
      · simp at h
      · split at h
        · simp at h
        · split at h
          · simp at h
          · split at h
            · simp at h
            · rename_i hne hlen
              simp only [Prod.mk.injEq, CreateResult.created.injEq] at h
              obtain ⟨hcm, hdb2, hc2⟩ := h
              refine ⟨hdb2.symm ▸ (by rw [← hcm]), hc2.symm, ?_, ?_, ?_⟩
              · rw [← hcm]
              · rw [← hcm]
                exact hne
              · rw [← hcm]
                exact Nat.le_of_not_lt hlen

/-! ### Behaviour of the sync upsert loop -/

theorem updateOrCreate_mem (db : DB) (fid title : String) (rd : Nat) :
    ∃ cf ∈ (updateOrCreate db fid title rd).1.catalog,
      cf.film_id = fid ∧ cf.title = title ∧ cf.release_date = rd := by
  unfold updateOrCreate
  by_cases h : db.catalog.any (fun cf => cf.film_id == fid) = true
  · rw [if_pos h]
    obtain ⟨c, hc, hcf⟩ := List.any_eq_true.mp h
    simp only [beq_iff_eq] at hcf
    refine ⟨{ c with title := title, release_date := rd }, ?_, hcf, rfl, rfl⟩
    simp only [List.mem_map]
    exact ⟨c, hc, by simp [hcf]⟩
  · rw [if_neg h]
    refine ⟨{ id := db.nextCatalogId, film_id := fid, title := title, release_date := rd },
      ?_, rfl, rfl, rfl⟩
    simp

theorem updateOrCreate_preserve (db : DB) (fid title : String) (rd : Nat)
    (cf : CatalogFilm) (hmem : cf ∈ db.catalog) (hne : cf.film_id ≠ fid) :
    cf ∈ (updateOrCreate db fid title rd).1.catalog := by
  unfold updateOrCreate
  by_cases h : db.catalog.any (fun c => c.film_id == fid) = true
  · rw [if_pos h]
    simp only [List.mem_map]
    exact ⟨cf, hmem, by simp [hne]⟩
  · rw [if_neg h]
    exact List.mem_append_left _ hmem

theorem syncLoop_counts :
    ∀ (rs : List RemoteFilm) (db : DB) (pos : Nat),
      (syncLoop db pos rs).2.1 + (syncLoop db pos rs).2.2 = rs.length := by
  intro rs
  induction rs with
  | nil => intro db pos; rfl
  | cons r t ih =>
    intro db pos
    simp only [syncLoop, List.length_cons]
    have := ih (updateOrCreate db (Nat.repr (pos + 1)) r.title r.release_date).1 (pos + 1)
    by_cases hc : (updateOrCreate db (Nat.repr (pos + 1)) r.title r.release_date).2 = true
      <;> simp [hc] <;> omega

theorem syncLoop_preserve :
    ∀ (rs : List RemoteFilm) (db : DB) (pos : Nat) (cf : CatalogFilm),
      cf ∈ db.catalog →
      (∀ j, j < rs.length → cf.film_id ≠ Nat.repr (pos + j + 1)) →
      cf ∈ (syncLoop db pos rs).1.catalog := by
  intro rs
  induction rs with
  | nil => intro db pos cf hmem _; exact hmem
  | cons r t ih =>
    intro db pos cf hmem hids
    simp only [syncLoop]
    refine ih _ (pos + 1) cf ?_ ?_
    · exact updateOrCreate_preserve db _ r.title r.release_date cf hmem
        (by simpa using hids 0 (by simp))
    · intro j hj
      have := hids (j + 1) (by simpa using Nat.succ_lt_succ hj)
      simpa [Nat.add_assoc, Nat.add_comm, Nat.add_left_comm] using this

theorem syncLoop_mem :
    ∀ (rs : List RemoteFilm) (db : DB) (pos : Nat) (i : Nat) (hi : i < rs.length),
      ∃ cf ∈ (syncLoop db pos rs).1.catalog,
        cf.film_id = Nat.repr (pos + i + 1)
        ∧ cf.title = (rs.get ⟨i, hi⟩).title
        ∧ cf.release_date = (rs.get ⟨i, hi⟩).release_date := by
  intro rs
  induction rs with
  | nil => intro db pos i hi; exact absurd hi (by simp)
  | cons r t ih =>
    intro db pos i hi
    cases i with
    | zero =>
      obtain ⟨cf, hcfmem, hcfid, hcft, hcfrd⟩ :=
        updateOrCreate_mem db (Nat.repr (pos + 1)) r.title r.release_date
      refine ⟨cf, ?_, ?_, hcft, hcfrd⟩
      · simp only [syncLoop]
        refine syncLoop_preserve t _ (pos + 1) cf hcfmem ?_
        intro j hj hrep
        rw [hcfid] at hrep
        have := natRepr_injective _ _ hrep
        omega
      · rw [hcfid]
    | succ i' =>
      have hi' : i' < t.length := by simpa using Nat.lt_of_succ_lt_succ hi
      obtain ⟨cf, hcfmem, hcfid, hcft, hcfrd⟩ :=
        ih (updateOrCreate db (Nat.repr (pos + 1)) r.title r.release_date).1 (pos + 1) i' hi'
      refine ⟨cf, hcfmem, ?_, hcft, hcfrd⟩
      rw [hcfid]
      congr 1
      omega

/-! ### The claims -/

/-- C1: a successful `createComment` persists the comment and deletes the
`films_list` cache key, so the next `listFilms` misses the cache, recomputes
the list from the store state that now contains the comment, and the stored
comment count for the commented film has grown by one. -/
theorem claim_C1 (db : DB) (cache : Cache) (req : Request) (cm : Comment)
    (fails : String → Bool)
    (h : (createComment db cache req).1 = CreateResult.created cm) :
    cm ∈ (createComment db cache req).2.1.comments
    ∧ cacheGet (createComment db cache req).2.2 FILMS_CACHE_KEY = none
    ∧ listFilms (createComment db cache req).2.1 (createComment db cache req).2.2 fails
        = (CacheVal.filmList (assembleViews (createComment db cache req).2.1 fails),
           cacheSet (createComment db cache req).2.2 FILMS_CACHE_KEY
             (CacheVal.filmList (assembleViews (createComment db cache req).2.1 fails)) CACHE_TTL,
           true)
    ∧ ((createComment db cache req).2.1.comments.filter (fun c => c.filmId == cm.filmId)).length
        = (db.comments.filter (fun c => c.filmId == cm.filmId)).length + 1 := by
  have h' : createComment db cache req
      = (CreateResult.created cm, (createComment db cache req).2.1,
         (createComment db cache req).2.2) := by
    rw [← h]
  obtain ⟨hdb2, hc2, -, -, -⟩ := createComment_created_inv db cache req cm _ _ h'
  have hdel : cacheGet (createComment db cache req).2.2 FILMS_CACHE_KEY = none := by
    rw [hc2]
    exact cacheGet_delete_self cache FILMS_CACHE_KEY
  refine ⟨?_, hdel, ?_, ?_⟩
  · rw [hdb2]
    simp
  · simp only [listFilms, hdel]
  · rw [hdb2]
    simp [List.filter_append]

/-- C1 witness: the concrete successful call on the sample store. -/
theorem claim_C1_witness :
    ({ id := 2, filmId := 1, comment := "hi", created_at := 5 } : Comment)
        ∈ (createComment sampleDB emptyCache sampleReq).2.1.comments
    ∧ cacheGet (createComment sampleDB emptyCache sampleReq).2.2 FILMS_CACHE_KEY = none
    ∧ ((createComment sampleDB emptyCache sampleReq).2.1.comments.filter
        (fun c => c.filmId == (1 : Int))).length
        = (sampleDB.comments.filter (fun c => c.filmId == (1 : Int))).length + 1 := by
  obtain ⟨h1, h2, -, h4⟩ :=
    claim_C1 sampleDB emptyCache sampleReq
      { id := 2, filmId := 1, comment := "hi", created_at := 5 } noFails (by decide)
  exact ⟨h1, h2, h4⟩

/-- C4: `createComment` answers a ValidationError for an empty comment
string, a whitespace-only comment string, a comment whose trimmed length
exceeds 500 (against a film value that is present, truthy, parses and
exists, so that the comment checks are the ones that fire), for a missing
film field, and for a truthy film field that is not a valid integer; and
every comment it ever persists has trimmed length in [1, 500]. -/
theorem claim_C4 (db : DB) (cache : Cache) (v : JVal) (k : Int)
    (hv : pyTruthy v = true) (hp : pyInt v = some k)
    (hex : (db.films.find? (fun f => f.id == k)).isSome = true)
    (w : JVal) (hw : pyTruthy w = true) (hwp : pyInt w = none)
    (s : String) (hs1 : s ≠ "") (hs2 : pyStrip s = "")
    (t : String) (ht : (pyStrip t).length > 500) :
    (∃ d, (createComment db cache ⟨some v, some (.jstr "")⟩).1 = CreateResult.validationError d)
    ∧ (∃ d, (createComment db cache ⟨some v, some (.jstr s)⟩).1 = CreateResult.validationError d)
    ∧ (∃ d, (createComment db cache ⟨some v, some (.jstr t)⟩).1 = CreateResult.validationError d)
    ∧ (∀ c, ∃ d, (createComment db cache ⟨none, c⟩).1 = CreateResult.validationError d)
    ∧ (∀ c, ∃ d, (createComment db cache ⟨some w, c⟩).1 = CreateResult.validationError d)
    ∧ (∀ (req : Request) (cm : Comment),
        (createComment db cache req).1 = CreateResult.created cm →
        1 ≤ (pyStrip cm.comment).length ∧ (pyStrip cm.comment).length ≤ 500) := by
  obtain ⟨film, hfilm⟩ := Option.isSome_iff_exists.mp hex
  refine ⟨?_, ?_, ?_, ?_, ?_, ?_⟩
  · refine ⟨"comment text is required", ?_⟩
    simp only [createComment, Option.getD_some, hv, Bool.true_eq_false, if_neg, hp, hfilm]
    simp [pyTruthy]
  · refine ⟨"comment cannot be empty or whitespace only", ?_⟩
    simp only [createComment, Option.getD_some, hv, Bool.true_eq_false, if_neg, hp, hfilm]
    simp [pyTruthy, pyStr, hs1, hs2]
  · have htne : t ≠ "" := by
      intro he
      rw [he, pyStrip_empty] at ht
      simp at ht
    have hne : pyStrip t ≠ "" := by
      intro he
      rw [he] at ht
      simp at ht
    refine ⟨"Comment cannot exceed 500 characters", ?_⟩
    simp only [createComment, Option.getD_some, hv, Bool.true_eq_false, if_neg, hp, hfilm]
    simp [pyTruthy, pyStr, htne, hne, ht]
  · intro c
    refine ⟨"film ID is required", ?_⟩
    simp [createComment, pyTruthy]
  · intro c
    refine ⟨"film ID must be a valid integer", ?_⟩
    simp [createComment, hw, hwp]
  · intro req cm h
    have h' : createComment db cache req
        = (CreateResult.created cm, (createComment db cache req).2.1,
           (createComment db cache req).2.2) := by
      rw [← h]
    obtain ⟨-, -, hcomment, hne, hlen⟩ := createComment_created_inv db cache req cm _ _ h'
    have hfix : pyStrip cm.comment = cm.comment := by
      rw [hcomment, pyStrip_idem]
    rw [hfix]
    exact ⟨one_le_length_of_ne_empty hne, hlen⟩

set_option maxRecDepth 8192 in
/-- C4 witness: the five rejected concrete requests against the sample
store, and the length bounds for the concrete persisted comment. -/
theorem claim_C4_witness :
    (∃ d, (createComment sampleDB emptyCache ⟨some (.jnum 1), some (.jstr "")⟩).1
        = CreateResult.validationError d)
    ∧ (∃ d, (createComment sampleDB emptyCache ⟨some (.jnum 1), some (.jstr " ")⟩).1
        = CreateResult.validationError d)
    ∧ (∃ d, (createComment sampleDB emptyCache ⟨some (.jnum 1), some (.jstr longText)⟩).1
        = CreateResult.validationError d)
    ∧ (∃ d, (createComment sampleDB emptyCache ⟨none, some (.jstr "x")⟩).1
        = CreateResult.validationError d)
    ∧ (∃ d, (createComment sampleDB emptyCache ⟨some (.jstr "abc"), some (.jstr "x")⟩).1
        = CreateResult.validationError d)
    ∧ (1 ≤ (pyStrip "hi").length ∧ (pyStrip "hi").length ≤ 500) := by
  obtain ⟨h1, h2, h3, h4, h5, h6⟩ :=
    claim_C4 sampleDB emptyCache (.jnum 1) 1 (by decide) rfl (by decide)
      (.jstr "abc") (by decide) (by decide)
      " " (by decide) (by decide)
      longText (by decide)
  exact ⟨h1, h2, h3, h4 (some (.jstr "x")), h5 (some (.jstr "x")),
         h6 sampleReq { id := 2, filmId := 1, comment := "hi", created_at := 5 } (by decide)⟩

/-- C3 counterexample: the film field `0` is present and is a perfectly
valid integer referencing no local film, yet `createComment` answers the
ValidationError `film ID is required` — not NotFound — because the view
tests the field with Python truthiness (`if not film_id:`) and the integer
`0` is falsy. -/
theorem claim_C3_counterexample :
    (Request.mk (some (JVal.jnum 0)) (some (JVal.jstr "hi"))).filmField = some (JVal.jnum 0)
    ∧ pyInt (JVal.jnum 0) = some 0
    ∧ sampleDB.films.find? (fun f => f.id == (0 : Int)) = none
    ∧ (createComment sampleDB emptyCache
        (Request.mk (some (JVal.jnum 0)) (some (JVal.jstr "hi")))).1
        = CreateResult.validationError "film ID is required"
    ∧ CreateResult.validationError "film ID is required" ≠ CreateResult.notFound 0 := by
  refine ⟨rfl, rfl, by decide, by decide, by decide⟩

/-- C3 amended: a present and *truthy* film value that parses as an integer
referencing no local film yields NotFound; the film-field ValidationErrors
occur only when the field is missing or falsy (`None`, `False`, `0`, `""`)
or fails integer conversion. -/
theorem claim_C3_amended (db : DB) (cache : Cache) (req : Request)
    (v : JVal) (k : Int)
    (hv : req.filmField = some v) (ht : pyTruthy v = true) (hp : pyInt v = some k)
    (hnone : db.films.find? (fun f => f.id == k) = none) :
    (createComment db cache req).1 = CreateResult.notFound k
    ∧ ∀ (db2 : DB) (c2 : Cache) (r2 : Request),
        ((createComment db2 c2 r2).1 = CreateResult.validationError "film ID is required"
          ∨ (createComment db2 c2 r2).1
              = CreateResult.validationError "film ID must be a valid integer") →
        (pyTruthy (r2.filmField.getD JVal.jnull) = false
          ∨ pyInt (r2.filmField.getD JVal.jnull) = none) := by
  constructor
  · simp [createComment, hv, ht, hp, hnone]
  · intro db2 c2 r2 hres
    by_cases h1 : pyTruthy (r2.filmField.getD JVal.jnull) = false
    · exact Or.inl h1
    · cases hp2 : pyInt (r2.filmField.getD JVal.jnull) with
      | none => exact Or.inr rfl
      | some k2 =>
        exfalso
        simp only [createComment] at hres
        rw [if_neg h1, hp2] at hres
        split at hres
        · simp_all
        · split at hres
          · rcases hres with h | h <;> simp at h
          · split at hres
            · rcases hres with h | h <;> simp at h
            · split at hres
              · rcases hres with h | h <;> simp at h
              · split at hres
                · rcases hres with h | h <;> simp at h
                · rcases hres with h | h <;> simp at h

/-- C3 amended witness: the string `"7"` is truthy, parses to 7, no film 7
exists in the sample store, and the call answers NotFound. -/
theorem claim_C3_amended_witness :
    (createComment sampleDB emptyCache
      (Request.mk (some (JVal.jstr "7")) (some (JVal.jstr "hi")))).1
      = CreateResult.notFound 7 :=
  (claim_C3_amended sampleDB emptyCache
    (Request.mk (some (JVal.jstr "7")) (some (JVal.jstr "hi")))
    (JVal.jstr "7") 7 rfl (by decide) (by decide) (by decide)).1

/-- C5: whatever `listFilms` returns — the recomputed list on a miss, or a
previously stored list on a hit (the cache invariant) — is a film-view
sequence sorted ascending by release date. -/
theorem claim_C5 (db : DB) (cache : Cache) (fails : String → Bool)
    (h : CacheWF cache) :
    ∃ l, (listFilms db cache fails).1 = CacheVal.filmList l ∧ l.Pairwise viewLe := by
  simp only [listFilms]
  cases hc : cacheGet cache FILMS_CACHE_KEY with
  | some v =>
    obtain ⟨l, rfl, hl⟩ := h v hc
    exact ⟨l, rfl, hl⟩
  | none => exact ⟨_, rfl, assembleViews_pairwise db fails⟩

/-- C5 witness: the sample store with an empty (trivially well-formed)
cache. -/
theorem claim_C5_witness :
    ∃ l, (listFilms sampleDB emptyCache noFails).1 = CacheVal.filmList l
    ∧ l.Pairwise viewLe :=
  claim_C5 sampleDB emptyCache noFails cacheWF_empty

/-- C6: two consecutive `listFilms` calls against the same store (no
intervening invalidation; TTL expiry, which the model elides, has not
occurred) give the same payload; the second is a cache hit that touches no
store and leaves the cache unchanged, whatever each call's resolution
oracle does. -/
theorem claim_C6 (db : DB) (cache : Cache) (fails1 fails2 : String → Bool) :
    (listFilms db (listFilms db cache fails1).2.1 fails2).1 = (listFilms db cache fails1).1
    ∧ (listFilms db (listFilms db cache fails1).2.1 fails2).2.1
        = (listFilms db cache fails1).2.1
    ∧ (listFilms db (listFilms db cache fails1).2.1 fails2).2.2 = false := by
  simp only [listFilms]
  cases hc : cacheGet cache FILMS_CACHE_KEY with
  | some v => simp [hc]
  | none => simp [hc, cacheGet_set_self]

/-- C7: a successful `createComment` deletes exactly the `films_list`
key: every per-film detail key `film_<externalId>` — and in fact every key
other than `films_list` — still maps to exactly what it mapped to before. -/
theorem claim_C7 (db : DB) (cache : Cache) (req : Request) (cm : Comment)
    (h : (createComment db cache req).1 = CreateResult.created cm) :
    (∀ eid, cacheGet (createComment db cache req).2.2 ("film_" ++ eid)
        = cacheGet cache ("film_" ++ eid))
    ∧ cacheGet (createComment db cache req).2.2 FILMS_CACHE_KEY = none
    ∧ ∀ k, k ≠ FILMS_CACHE_KEY →
        cacheGet (createComment db cache req).2.2 k = cacheGet cache k := by
  have h' : createComment db cache req
      = (CreateResult.created cm, (createComment db cache req).2.1,
         (createComment db cache req).2.2) := by
    rw [← h]
  obtain ⟨-, hc2, -, -, -⟩ := createComment_created_inv db cache req cm _ _ h'
  rw [hc2]
  exact ⟨fun eid => cacheGet_delete_ne cache FILMS_CACHE_KEY _ (filmKey_ne_listKey eid),
         cacheGet_delete_self cache FILMS_CACHE_KEY,
         fun k hk => cacheGet_delete_ne cache FILMS_CACHE_KEY k hk⟩

/-- C7 witness: the concrete successful call, watching the key of film 1. -/
theorem claim_C7_witness :
    cacheGet (createComment sampleDB emptyCache sampleReq).2.2 ("film_" ++ "1")
      = cacheGet emptyCache ("film_" ++ "1")
    ∧ cacheGet (createComment sampleDB emptyCache sampleReq).2.2 FILMS_CACHE_KEY = none := by
  obtain ⟨h1, h2, -⟩ :=
    claim_C7 sampleDB emptyCache sampleReq
      { id := 2, filmId := 1, comment := "hi", created_at := 5 } (by decide)
  exact ⟨h1 "1", h2⟩

/-- C8: when the detail key is not cached and no catalog row carries the
requested external id, `getFilm` answers NotFound (status 404), not a 500:
the store working normally (`storeFail = false`), the missing-row case is
caught specifically and never reaches the generic error path. -/
theorem claim_C8 (db : DB) (cache : Cache) (fails : String → Bool) (fid : String)
    (hc : cacheGet cache ("film_" ++ fid) = none)
    (hf : db.catalog.find? (fun cf => cf.film_id == fid) = none) :
    (getFilm db cache fails false fid).1 = DetailResult.notFound fid
    ∧ (getFilm db cache fails false fid).1.status = 404
    ∧ (getFilm db cache fails false fid).1.status ≠ 500 := by
  simp [getFilm, hc, hf, DetailResult.status]

/-- C8 witness: unknown external id `"9"` against the sample store. -/
theorem claim_C8_witness :
    (getFilm sampleDB emptyCache noFails false "9").1 = DetailResult.notFound "9"
    ∧ (getFilm sampleDB emptyCache noFails false "9").1.status = 404
    ∧ (getFilm sampleDB emptyCache noFails false "9").1.status ≠ 500 :=
  claim_C8 sampleDB emptyCache noFails "9" rfl (by decide)

/-- C10: on the unknown-id path `getFilm` performs no write at all: the
whole cache is returned unchanged (in particular the NotFound outcome is
not cached under `film_<id>`), the store was queried, and a repeated call
finds the same empty cache entry and queries the store again.  (`getFilm`
takes the database only as input, so the store trivially cannot change.) -/
theorem claim_C10 (db : DB) (cache : Cache) (fails : String → Bool) (fid : String)
    (hc : cacheGet cache ("film_" ++ fid) = none)
    (hf : db.catalog.find? (fun cf => cf.film_id == fid) = none) :
    getFilm db cache fails false fid = (DetailResult.notFound fid, cache, true)
    ∧ cacheGet (getFilm db cache fails false fid).2.1 ("film_" ++ fid) = none
    ∧ (getFilm db (getFilm db cache fails false fid).2.1 fails false fid).2.2 = true := by
  have hmain : getFilm db cache fails false fid = (DetailResult.notFound fid, cache, true) := by
    simp [getFilm, hc, hf]
  refine ⟨hmain, ?_, ?_⟩
  · rw [hmain]
    exact hc
  · rw [hmain]
    simp [getFilm, hc, hf]

/-- C2: on a cache miss, `listFilms` pairs the catalog rows (in release-date
order) with views whose comment count is: the number of comments of the
first title-matching local film when the resolution succeeds and a match
exists, and 0 when no local film matches or the resolution oracle raises on
that title.  The call returns a plain film list for every oracle — a
resolution failure is never surfaced to the caller. -/
theorem claim_C2 (db : DB) (cache : Cache) (fails : String → Bool)
    (hmiss : cacheGet cache FILMS_CACHE_KEY = none) :
    ∃ views, (listFilms db cache fails).1 = CacheVal.filmList views
    ∧ views.length = db.catalog.length
    ∧ ∀ p ∈ (sortedCatalog db).zip views,
        p.2.comment_count
          = if fails p.1.title then 0
            else
              match db.films.find? (fun f => f.title == p.1.title) with
              | some film_record =>
                  (db.comments.filter (fun c => c.filmId == film_record.id)).length
              | none => 0 := by
  refine ⟨assembleViews db fails, by simp [listFilms, hmiss],
    assembleViews_length db fails, ?_⟩
  intro p hp
  rw [show (sortedCatalog db).zip (assembleViews db fails)
      = (sortedCatalog db).map (fun cf => (cf, filmViewOf db fails cf)) from
    zip_map_self (filmViewOf db fails) (sortedCatalog db)] at hp
  obtain ⟨cf, -, rfl⟩ := List.mem_map.mp hp
  simp only [filmViewOf]

/-- C2 witness: the sample store, an empty cache, and an oracle failing on
the title of the second catalog film. -/
theorem claim_C2_witness :
    ∃ views,
      (listFilms sampleDB emptyCache (fun t => t == "Empire")).1 = CacheVal.filmList views
      ∧ views.length = sampleDB.catalog.length
      ∧ ∀ p ∈ (sortedCatalog sampleDB).zip views,
          p.2.comment_count
            = if (fun t => t == "Empire") p.1.title then 0
              else
                match sampleDB.films.find? (fun f => f.title == p.1.title) with
                | some film_record =>
                    (sampleDB.comments.filter (fun c => c.filmId == film_record.id)).length
                | none => 0 :=
  claim_C2 sampleDB emptyCache (fun t => t == "Empire") rfl

/-- C9: syncing a fetched sequence of `n` remote records upserts catalog
rows keyed by the position-assigned external ids `str(1) … str(n)` (the
row for position `i` carries that record's title and release date — ids
from the remote payload play no part, the model of `getfilms` not even
retaining them), reports created and updated counts summing to `n`, and
ends by deleting the `films_list` cache key. -/
theorem claim_C9 (db : DB) (cache : Cache) (remote : List RemoteFilm) :
    (sync db cache remote).created + (sync db cache remote).updated = remote.length
    ∧ cacheGet (sync db cache remote).cache FILMS_CACHE_KEY = none
    ∧ ∀ (i : Nat) (hi : i < remote.length),
        ∃ cf ∈ (sync db cache remote).db.catalog,
          cf.film_id = Nat.repr (i + 1)
          ∧ cf.title = (remote.get ⟨i, hi⟩).title
          ∧ cf.release_date = (remote.get ⟨i, hi⟩).release_date := by
  refine ⟨?_, ?_, ?_⟩
  · exact syncLoop_counts remote db 0
  · exact cacheGet_delete_self cache FILMS_CACHE_KEY
  · intro i hi
    have h := syncLoop_mem remote db 0 i hi
    simpa [sync, Nat.zero_add] using h

/-- C9 witness: syncing three concrete records over the sample store (whose
catalog already holds external ids "1" and "2") gives 1 created, 2 updated,
and a row keyed "3" holding the third record. -/
theorem claim_C9_witness :
    (sync sampleDB emptyCache
        [{ title := "X", release_date := 5, comment_count := 0 },
         { title := "Y", release_date := 6, comment_count := 0 },
         { title := "Z", release_date := 7, comment_count := 0 }]).created
      + (sync sampleDB emptyCache
        [{ title := "X", release_date := 5, comment_count := 0 },
         { title := "Y", release_date := 6, comment_count := 0 },
         { title := "Z", release_date := 7, comment_count := 0 }]).updated = 3
    ∧ ∃ cf ∈ (sync sampleDB emptyCache
        [{ title := "X", release_date := 5, comment_count := 0 },
         { title := "Y", release_date := 6, comment_count := 0 },
         { title := "Z", release_date := 7, comment_count := 0 }]).db.catalog,
        cf.film_id = Nat.repr 3 ∧ cf.title = "Z" ∧ cf.release_date = 7 := by
  obtain ⟨h1, -, h3⟩ := claim_C9 sampleDB emptyCache
    [{ title := "X", release_date := 5, comment_count := 0 },
     { title := "Y", release_date := 6, comment_count := 0 },
     { title := "Z", release_date := 7, comment_count := 0 }]
  refine ⟨h1, ?_⟩
  simpa using h3 2 (by decide)

/-- C10 witness: unknown external id `"9"` with an empty cache. -/
theorem claim_C10_witness :
    getFilm sampleDB emptyCache noFails false "9"
      = (DetailResult.notFound "9", emptyCache, true)
    ∧ cacheGet (getFilm sampleDB emptyCache noFails false "9").2.1 ("film_" ++ "9") = none
    ∧ (getFilm sampleDB (getFilm sampleDB emptyCache noFails false "9").2.1
        noFails false "9").2.2 = true :=
  claim_C10 sampleDB emptyCache noFails "9" rfl (by decide)

end FilmApi
